import Mathlib

/-!
Verification of the rotating-gate ball simulation
(`src/PhysicsVisualMinimal.tsx` and the `RotatingGateBalls` variant).

The numeric code is embedded over `ℝ`.  JavaScript's `%` operator is the
truncated remainder (`jsMod`), `Math.hypot` is `hypot`, `Math.atan2` is
`atan2`.  Randomness (`Math.random()`) is modelled by an injected stream
`rngf : ℕ → ℝ` consumed at an explicit index, and the module-level
`GLOBAL_ID` counter is threaded through the state.
-/

noncomputable section
open Classical Real

/-- JavaScript number truncation toward zero (used by the `%` operator). -/
def jsTrunc (z : ℝ) : ℤ := if 0 ≤ z then ⌊z⌋ else ⌈z⌉

/-- JavaScript `x % y`: remainder with the sign of the dividend. -/
def jsMod (x y : ℝ) : ℝ := x - y * jsTrunc (x / y)

/-- `wrapAngle(theta)`: `const t = theta % (Math.PI * 2); return t < 0 ? t + Math.PI * 2 : t;` -/
def wrapAngle (theta : ℝ) : ℝ :=
  let t := jsMod theta (π * 2)
  if t < 0 then t + π * 2 else t

/-- `angleInArc(angle, arcStart, arcLen)` from the source: wrap the angle and
the arc start; if the arc end stays below `2π` test the plain interval,
otherwise split at `2π`. -/
def angleInArc (angle arcStart arcLen : ℝ) : Prop :=
  let a := wrapAngle angle
  let s := wrapAngle arcStart
  let e := s + arcLen
  if e < π * 2 then a ≥ s ∧ a ≤ e
  else a ≥ s ∨ a ≤ e - π * 2

/-- `Math.hypot(x, y)`. -/
def hypot (x y : ℝ) : ℝ := Real.sqrt (x ^ 2 + y ^ 2)

/-- `Math.atan2(y, x)` with the JavaScript quadrant conventions. -/
def atan2 (y x : ℝ) : ℝ :=
  if 0 < x then arctan (y / x)
  else if x < 0 then (if 0 ≤ y then arctan (y / x) + π else arctan (y / x) - π)
  else if 0 < y then π / 2
  else if y < 0 then -(π / 2)
  else 0

/-- `clamp(v, min, max)` from the source. -/
def clamp (v lo hi : ℝ) : ℝ := max lo (min hi v)

section WrapLemmas

lemma two_pi_pos' : (0 : ℝ) < π * 2 := by have := Real.pi_pos; linarith

lemma jsMod_bounds (x y : ℝ) (hy : 0 < y) : -y < jsMod x y ∧ jsMod x y < y := by
  have hyne : y ≠ 0 := ne_of_gt hy
  have hx : x / y * y = x := div_mul_cancel₀ x hyne
  unfold jsMod jsTrunc
  by_cases h0 : 0 ≤ x / y
  · rw [if_pos h0]
    have h1 := Int.floor_le (x / y)
    have h2 := Int.lt_floor_add_one (x / y)
    constructor
    · nlinarith [h1, h2, hy, hx]
    · nlinarith [h1, h2, hy, hx]
  · rw [if_neg h0]
    have h1 := Int.le_ceil (x / y)
    have h2 := Int.ceil_lt_add_one (x / y)
    constructor
    · nlinarith [h1, h2, hy, hx]
    · nlinarith [h1, h2, hy, hx]

lemma wrapAngle_bounds (theta : ℝ) : 0 ≤ wrapAngle theta ∧ wrapAngle theta < π * 2 := by
  have h := jsMod_bounds theta (π * 2) two_pi_pos'
  unfold wrapAngle
  by_cases ht : jsMod theta (π * 2) < 0
  · rw [if_pos ht]
    constructor <;> linarith [h.1, h.2]
  · rw [if_neg ht]
    constructor <;> linarith [h.1, h.2, not_lt.mp ht]

lemma wrapAngle_eq_self {t : ℝ} (h0 : 0 ≤ t) (h1 : t < π * 2) : wrapAngle t = t := by
  have hy : (0 : ℝ) < π * 2 := two_pi_pos'
  have hz0 : 0 ≤ t / (π * 2) := div_nonneg h0 (le_of_lt hy)
  have hz1 : t / (π * 2) < 1 := (div_lt_one hy).mpr h1
  have hfl : ⌊t / (π * 2)⌋ = 0 := Int.floor_eq_zero_iff.mpr ⟨hz0, hz1⟩
  unfold wrapAngle jsMod jsTrunc
  rw [if_pos hz0, hfl]
  simp [not_lt.mpr h0]

end WrapLemmas

/-! ### Shared ring-normal helpers (`dist = Math.hypot(..) || 1e-6`, unit normal, `vn`) -/

/-- Guarded center distance `Math.hypot(dx, dy) || 1e-6`. -/
def ringDist (px py cx cy : ℝ) : ℝ :=
  let d0 := hypot (px - cx) (py - cy)
  if d0 = 0 then 1e-6 else d0

/-- Outward normal, x component (`dx / dist`). -/
def ringNx (px py cx cy : ℝ) : ℝ := (px - cx) / ringDist px py cx cy

/-- Outward normal, y component (`dy / dist`). -/
def ringNy (px py cx cy : ℝ) : ℝ := (py - cy) / ringDist px py cx cy

/-- Velocity component along the outward normal (`b.vx * nx + b.vy * ny`). -/
def ringVn (px py vx vy cx cy : ℝ) : ℝ :=
  vx * ringNx px py cx cy + vy * ringNy px py cx cy

namespace Minimal

/-! Embedding of `src/PhysicsVisualMinimal.tsx`. -/

def gapPercent : ℝ := 0.10

def rotationSpeed : ℝ := 0.6

def gravity : ℝ := 1400

def restitutionWall : ℝ := 0.98

def restitutionBall : ℝ := 0.96

def maxBalls : ℕ := 300

def minBallRadius : ℝ := 3

def initialRadius : ℝ := 8

structure Ball where
  id : ℕ
  x : ℝ
  y : ℝ
  vx : ℝ
  vy : ℝ
  r : ℝ
  color : String
  gapOutsideTicks : ℕ
  exitGraceUntil : ℝ

instance : Inhabited Ball := ⟨⟨0, 0, 0, 0, 0, 0, "", 0, 0⟩⟩

def grays : List String := ["#000", "#333", "#666", "#999"]

/-- `makeBall(x, y, radius)`; the optional fields `gapOutsideTicks` /
`exitGraceUntil` are unset, i.e. treated as 0 by every use site. -/
def makeBall (rngf : ℕ → ℝ) (k : ℕ) (nextId : ℕ) (x y radius : ℝ) : Ball × ℕ × ℕ :=
  ({ id := nextId, x := x, y := y,
     vx := (rngf (k + 1) - 0.5) * 60,
     vy := (rngf (k + 2) - 0.8) * 120,
     r := radius,
     color := grays.getD (⌊rngf k * 4⌋).toNat "",
     gapOutsideTicks := 0, exitGraceUntil := 0 }, k + 3, nextId + 1)

/-- `resolveWallCollision(b, cx, cy, R)` with the component constant
`restitutionWall` passed explicitly as configuration. -/
def resolveWallCollision (restitutionWall : ℝ) (b : Ball) (cx cy R : ℝ) : Ball :=
  let dist := ringDist b.x b.y cx cy
  let nx := ringNx b.x b.y cx cy
  let ny := ringNy b.x b.y cx cy
  let e := min 1.0 restitutionWall
  let eps : ℝ := 0.8
  let target := R - b.r - eps
  if dist > target then
    let vn := ringVn b.x b.y b.vx b.vy cx cy
    let vx1 := if vn > 0 then b.vx - (1 + e) * vn * nx else b.vx
    let vy1 := if vn > 0 then b.vy - (1 + e) * vn * ny else b.vy
    { b with x := cx + nx * target, y := cy + ny * target,
             vx := vx1 * 0.999, vy := vy1 * 0.999 }
  else b

/-- Body of the pairwise loop of `resolveBallBallCollisions` for one pair. -/
def resolvePair (a b : Ball) : Ball × Ball :=
  let dx := b.x - a.x
  let dy := b.y - a.y
  let d0 := hypot dx dy
  let dist := if d0 = 0 then 1e-6 else d0
  let minDist := a.r + b.r
  if dist < minDist then
    let overlap := minDist - dist
    let nx := dx / dist
    let ny := dy / dist
    let correction := overlap / 2
    let a1 := { a with x := a.x - nx * correction, y := a.y - ny * correction }
    let b1 := { b with x := b.x + nx * correction, y := b.y + ny * correction }
    let relVelAlongN := (b1.vx - a1.vx) * nx + (b1.vy - a1.vy) * ny
    if relVelAlongN < 0 then
      let j := -(1 + restitutionBall) * relVelAlongN / (1 + 1)
      ({ a1 with vx := a1.vx - j * nx, vy := a1.vy - j * ny },
       { b1 with vx := b1.vx + j * nx, vy := b1.vy + j * ny })
    else (a1, b1)
  else (a, b)

/-- `resolveBallBallCollisions()`: the exhaustive `i < j` double loop with
in-place element updates. -/
def resolveBallBallCollisions (l : List Ball) : List Ball :=
  let n := l.length
  (List.range n).foldl (fun acc i =>
    (List.range n).foldl (fun acc2 j =>
      if i < j then
        let p := resolvePair (acc2.getD i default) (acc2.getD j default)
        (acc2.set i p.1).set j p.2
      else acc2) acc) l

/-- Integration step of `stepSimulation`: gravity on `vy`, then explicit Euler. -/
def integrate (dt : ℝ) (b : Ball) : Ball :=
  let b1 := { b with vy := b.vy + gravity * dt }
  { b1 with x := b1.x + b1.vx * dt, y := b1.y + b1.vy * dt }

/-- The escape test of `stepSimulation` on the already-integrated ball:
`inGap && fullyOutside && vn > 0`. -/
def escapePredicate (cx cy R gapStart gapLen : ℝ) (b : Ball) : Prop :=
  let dx := b.x - cx
  let dy := b.y - cy
  let dist := hypot dx dy
  let angle := atan2 dy dx
  let padding := atan2 b.r R + 0.02
  let effectiveStart := gapStart + padding
  let effectiveLen := max 0 (gapLen - 2 * padding)
  let nx := dx / (if dist = 0 then 1e-6 else dist)
  let ny := dy / (if dist = 0 then 1e-6 else dist)
  let vn := b.vx * nx + b.vy * ny
  angleInArc angle effectiveStart effectiveLen ∧ dist - b.r ≥ R + 0.5 ∧ vn > 0

/-- The non-escaping tail of the per-ball loop body: exit-grace arming and
conditional wall resolution. -/
def postGap (cx cy R gapStart gapLen now : ℝ) (b : Ball) : Ball :=
  let dx := b.x - cx
  let dy := b.y - cy
  let dist := hypot dx dy
  let angle := atan2 dy dx
  let padding := atan2 b.r R + 0.02
  let effectiveStart := gapStart + padding
  let effectiveLen := max 0 (gapLen - 2 * padding)
  let inGap := angleInArc angle effectiveStart effectiveLen
  let closeToExit := inGap ∧ dist - b.r ≥ R - 0.5
  let b1 := if closeToExit then { b with exitGraceUntil := max b.exitGraceUntil (now + 180) } else b
  let inExitGrace := b1.exitGraceUntil > now
  if ¬inGap ∧ ¬inExitGrace ∧ dist + b1.r > R then resolveWallCollision restitutionWall b1 cx cy R
  else b1

/-- Per-ball body of the `stepSimulation` loop: integrate, classify escape
(with the 2-tick debounce), otherwise run grace / wall logic.  The `Bool`
records membership in `escapedIndices` (the `continue` path). -/
def processBall (cx cy R gapStart gapLen now dt : ℝ) (b0 : Ball) : Ball × Bool :=
  let b := integrate dt b0
  if escapePredicate cx cy R gapStart gapLen b then
    let b1 := { b with gapOutsideTicks := b.gapOutsideTicks + 1 }
    if b1.gapOutsideTicks ≥ 2 then (b1, true)
    else (postGap cx cy R gapStart gapLen now b1, false)
  else (postGap cx cy R gapStart gapLen now { b with gapOutsideTicks := 0 }, false)

end Minimal

/-- Descending insertion of one index (`escapedIndices.sort((a, b) => b - a)`). -/
def insertDesc (x : ℕ) : List ℕ → List ℕ
  | [] => [x]
  | y :: ys => if y ≥ x then y :: insertDesc x ys else x :: y :: ys

/-- Descending sort of the collected indices (distinct, so order is unique). -/
def insertionSortDesc (l : List ℕ) : List ℕ := l.foldr insertDesc []

namespace Minimal

/-- Handling of one escaped index: `splice(idx, 1)` then, if spawning is
enabled and the guard passes, push two jittered children of radius
`max(minBallRadius, removed.r * 0.96)`.  The accumulator carries the ball
list, the random-stream index and the next `GLOBAL_ID`. -/
def handleEscape (spawnEnabled : Bool) (cx2 cy2 : ℝ) (rngf : ℕ → ℝ)
    (acc : List Ball × ℕ × ℕ) (idx : ℕ) : List Ball × ℕ × ℕ :=
  let balls := acc.1
  let k := acc.2.1
  let nid := acc.2.2
  let removed := balls.getD idx default
  let balls1 := balls.eraseIdx idx
  if spawnEnabled then
    let newR := max minBallRadius (removed.r * 0.96)
    if balls1.length ≤ maxBalls ∧ newR ≥ minBallRadius then
      let jx := (rngf k - 0.5) * 0.5
      let jy := (rngf (k + 1) - 0.5) * 0.5
      let m1 := makeBall rngf (k + 2) nid (cx2 + jx) (cy2 + jy) newR
      let m2 := makeBall rngf m1.2.1 m1.2.2 (cx2 - jx) (cy2 - jy) newR
      (balls1 ++ [m1.1, m2.1], m2.2.1, m2.2.2)
    else (balls1, k, nid)
  else (balls1, k, nid)

structure SimState where
  balls : List Ball
  spawnEnabled : Bool
  gapStart : ℝ
  nextId : ℕ
  rngIdx : ℕ

/-- `stepSimulation(dt)` of `PhysicsVisualMinimal`: spawn-throttle hysteresis,
gap rotation, per-ball integration/classification, pairwise resolution, then
descending-order removal of escaped balls with optional paired spawning. -/
def stepSimulation (rngf : ℕ → ℝ) (cx cy R now dt : ℝ) (s : SimState) : SimState :=
  let spawnEnabled := if s.balls.length ≥ 20 then false
    else if s.balls.length ≤ 1 then true else s.spawnEnabled
  let gapLen := π * 2 * gapPercent
  let gapStart := wrapAngle (s.gapStart + rotationSpeed * dt)
  let processed := s.balls.map (processBall cx cy R gapStart gapLen now dt)
  let balls1 := processed.map Prod.fst
  let escapedIndices := (processed.enum.filter (fun p => p.2.2)).map Prod.fst
  let balls2 := resolveBallBallCollisions balls1
  let res := (insertionSortDesc escapedIndices).foldl
    (handleEscape spawnEnabled cx cy rngf) (balls2, s.rngIdx, s.nextId)
  { balls := res.1, spawnEnabled := spawnEnabled, gapStart := gapStart,
    nextId := res.2.2, rngIdx := res.2.1 }

end Minimal

namespace Gate

/-! Embedding of the `RotatingGateBalls` variant (`src/unnamed/part_002`). -/

def gapPercent : ℝ := 0.15

def rotationSpeed : ℝ := 0.6

def gravity : ℝ := 1400

def restitutionWall : ℝ := 1.00

def restitutionBall : ℝ := 0.98

def airDrag : ℝ := 0.000

def maxBalls : ℕ := 300

def minBallRadius : ℝ := 10

def initialRadius : ℝ := 10

structure Ball where
  id : ℕ
  x : ℝ
  y : ℝ
  vx : ℝ
  vy : ℝ
  r : ℝ
  color : String
  h : ℤ
  s : ℤ
  l : ℤ
  escapedAt : Option ℝ
  spawned : Bool
  opacity : Option ℝ
  trail : List (ℝ × ℝ × ℝ)
  gapOutsideTicks : ℕ
  exitGraceUntil : ℝ

instance : Inhabited Ball :=
  ⟨⟨0, 0, 0, 0, 0, 0, "", 0, 0, 0, none, false, none, [], 0, 0⟩⟩

/-- `makeBall(x, y, radius)` of the `RotatingGateBalls` variant: random hue /
saturation / lightness, then jittered initial velocity. -/
def makeBall (rngf : ℕ → ℝ) (k : ℕ) (nextId : ℕ) (x y radius : ℝ) : Ball × ℕ × ℕ :=
  let hue := ⌊185 + rngf k * 50⌋
  let sat := 64 + ⌊rngf (k + 1) * 16⌋
  let light := 52 + ⌊rngf (k + 2) * 12⌋
  ({ id := nextId, x := x, y := y,
     vx := (rngf (k + 3) - 0.5) * 60,
     vy := (rngf (k + 4) - 0.8) * 120,
     r := radius,
     color := "hsl(" ++ toString hue ++ " " ++ toString sat ++ "% " ++ toString light ++ "%)",
     h := hue, s := sat, l := light,
     escapedAt := none, spawned := false, opacity := none, trail := [],
     gapOutsideTicks := 0, exitGraceUntil := 0 }, k + 5, nextId + 1)

/-- `resolveRingCollision(b, cx, cy, R)`: clamp inside, reflect only when the
outward speed exceeds 5, bump the ring glow on impact.  Returns the updated
ball together with the new glow value. -/
def resolveRingCollision (restitutionWall : ℝ) (b : Ball) (cx cy R glow : ℝ) : Ball × ℝ :=
  let dist := ringDist b.x b.y cx cy
  let nx := ringNx b.x b.y cx cy
  let ny := ringNy b.x b.y cx cy
  let e := min 1.0 restitutionWall
  let eps : ℝ := 0.8
  let target := R - b.r - eps
  if dist > target then
    let vn := ringVn b.x b.y b.vx b.vy cx cy
    let vx1 := if vn > 5 then b.vx - (1 + e) * vn * nx else b.vx
    let vy1 := if vn > 5 then b.vy - (1 + e) * vn * ny else b.vy
    let glow1 := if vn > 5 then min 1 (glow + 0.6) else glow
    ({ b with x := cx + nx * target, y := cy + ny * target,
              vx := vx1 * 0.999, vy := vy1 * 0.999 }, glow1)
  else (b, glow)

/-- Body of the pairwise loop of `resolveBallBallCollisions` for one pair
(identical to the minimal variant up to the restitution constant). -/
def resolvePair (a b : Ball) : Ball × Ball :=
  let dx := b.x - a.x
  let dy := b.y - a.y
  let d0 := hypot dx dy
  let dist := if d0 = 0 then 1e-6 else d0
  let minDist := a.r + b.r
  if dist < minDist then
    let overlap := minDist - dist
    let nx := dx / dist
    let ny := dy / dist
    let correction := overlap / 2
    let a1 := { a with x := a.x - nx * correction, y := a.y - ny * correction }
    let b1 := { b with x := b.x + nx * correction, y := b.y + ny * correction }
    let relVelAlongN := (b1.vx - a1.vx) * nx + (b1.vy - a1.vy) * ny
    if relVelAlongN < 0 then
      let j := -(1 + restitutionBall) * relVelAlongN / (1 + 1)
      ({ a1 with vx := a1.vx - j * nx, vy := a1.vy - j * ny },
       { b1 with vx := b1.vx + j * nx, vy := b1.vy + j * ny })
    else (a1, b1)
  else (a, b)

/-- `resolveBallBallCollisions()` of the `RotatingGateBalls` variant. -/
def resolveBallBallCollisions (l : List Ball) : List Ball :=
  let n := l.length
  (List.range n).foldl (fun acc i =>
    (List.range n).foldl (fun acc2 j =>
      if i < j then
        let p := resolvePair (acc2.getD i default) (acc2.getD j default)
        (acc2.set i p.1).set j p.2
      else acc2) acc) l

/-- Accumulator of the per-ball loop of `stepSimulation`: processed balls,
queued spawns (`toSpawn`), queued removal indices (`toRemove`), random-stream
index, next `GLOBAL_ID`, and the ring glow. -/
structure LoopAcc where
  processed : List Ball
  toSpawn : List Ball
  toRemove : List ℕ
  k : ℕ
  nid : ℕ
  glow : ℝ

/-- Integration prefix of the per-ball loop: gravity by orientation, Euler
integration, trail update and the (zero-coefficient) air drag. -/
def integrateBall (isMobile : Bool) (dt : ℝ) (b0 : Ball) : Ball :=
  let b1 := if isMobile then { b0 with vy := b0.vy + gravity * dt }
            else { b0 with vx := b0.vx + -gravity * dt }
  let b2 := { b1 with x := b1.x + b1.vx * dt, y := b1.y + b1.vy * dt }
  let trail1 := b2.trail ++ [(b2.x, b2.y, b2.r)]
  let b3 := { b2 with trail := if trail1.length > 20 then trail1.drop 1 else trail1 }
  if airDrag > 0 then { b3 with vx := b3.vx * (1 - airDrag), vy := b3.vy * (1 - airDrag) } else b3

/-- Escape classification of the integrated ball `b4`: the strict core-gap
test with 2-tick debounce; on escape, mark the ball and queue the paired
spawn (guarded by the spawn flag, the cap and the minimum radius).  Returns
the ball, the queued spawns, and the advanced rng / id counters. -/
def escapeStep (cx cy R gapStart gapLen now : ℝ) (n : ℕ) (spawnEnabled : Bool)
    (rngf : ℕ → ℝ) (k nid : ℕ) (b4 : Ball) : Ball × List Ball × ℕ × ℕ :=
  let dx := b4.x - cx
  let dy := b4.y - cy
  let dist := hypot dx dy
  let angle := atan2 dy dx
  let basePad := atan2 b4.r R + 0.02
  let coreStart := gapStart + basePad
  let coreLen := max 0 (gapLen - 2 * basePad)
  let nx := dx / (if dist = 0 then 1e-6 else dist)
  let ny := dy / (if dist = 0 then 1e-6 else dist)
  let vn := b4.vx * nx + b4.vy * ny
  let fullyOutside := dist - b4.r ≥ R + 0.5
  if angleInArc angle coreStart coreLen ∧ fullyOutside ∧ vn > 0 ∧ b4.escapedAt = none then
    let bt := { b4 with gapOutsideTicks := b4.gapOutsideTicks + 1 }
    if bt.gapOutsideTicks ≥ 2 then
      let be := { bt with escapedAt := some now, opacity := some 1, spawned := true }
      if spawnEnabled then
        let newR := max minBallRadius (be.r * 0.98)
        if n ≤ maxBalls ∧ newR ≥ minBallRadius then
          let jx := (rngf k - 0.5) * 0.5
          let jy := (rngf (k + 1) - 0.5) * 0.5
          let m1 := makeBall rngf (k + 2) nid (cx + jx) (cy + jy) newR
          let m2 := makeBall rngf m1.2.1 m1.2.2 (cx - jx) (cy - jy) newR
          (be, [m1.1, m2.1], m2.2.1, m2.2.2)
        else (be, [], k, nid)
      else (be, [], k, nid)
    else (bt, [], k, nid)
  else ({ b4 with gapOutsideTicks := 0 }, [], k, nid)

/-- Exit-grace arming and the guarded ring collision for the processed ball. -/
def graceRingStep (cx cy R gapStart gapLen now : ℝ) (glow : ℝ) (b5 : Ball) : Ball × ℝ :=
  let dx := b5.x - cx
  let dy := b5.y - cy
  let dist := hypot dx dy
  let angle := atan2 dy dx
  let basePad := atan2 b5.r R + 0.02
  let coreStart := gapStart + basePad
  let coreLen := max 0 (gapLen - 2 * basePad)
  let inGapCore := angleInArc angle coreStart coreLen
  let nearMargin := max 0.0025 (atan2 (b5.r * 0.3 + 0.5) R)
  let nearStart := coreStart - nearMargin
  let nearLen := coreLen + 2 * nearMargin
  let inGapNear := angleInArc angle nearStart nearLen
  let closeToExit := inGapNear ∧ dist - b5.r ≥ R - 0.6
  let b6 := if closeToExit then { b5 with exitGraceUntil := max b5.exitGraceUntil (now + 180) } else b5
  let inExitGrace := b6.exitGraceUntil > now
  let suppressCollision := inGapCore ∨ (inGapNear ∧ closeToExit)
  if ¬suppressCollision ∧ b6.escapedAt = none ∧ ¬inExitGrace
  then resolveRingCollision restitutionWall b6 cx cy R glow
  else (b6, glow)

/-- Rectangular floor / side-wall / top-bottom handling by orientation. -/
def wallsStep (isMobile : Bool) (cssW cssH : ℝ) (b7 : Ball) : Ball :=
  let b8 :=
    if ¬isMobile then
      if b7.x - b7.r < 0 then
        let v1 := if b7.vx < 0 then -b7.vx * 0.7 else b7.vx
        { b7 with x := b7.r, vx := if |v1| < 5 then 0 else v1, vy := b7.vy * 0.99 }
      else b7
    else b7
  let b9 :=
    if isMobile then
      let bl := if b8.x - b8.r < 0 then
          let v1 := if b8.vx < 0 then -b8.vx * 0.7 else b8.vx
          { b8 with x := b8.r, vx := if |v1| < 5 then 0 else v1, vy := b8.vy * 0.995 }
        else b8
      if bl.x + bl.r > cssW then
        let v2 := if bl.vx > 0 then -bl.vx * 0.7 else bl.vx
        { bl with x := cssW - bl.r, vx := if |v2| < 5 then 0 else v2, vy := bl.vy * 0.995 }
      else bl
    else
      if b8.x + b8.r > cssW then
        let v2 := if b8.vx > 0 then -b8.vx * 0.7 else b8.vx
        { b8 with x := cssW - b8.r, vx := if |v2| < 5 then 0 else v2, vy := b8.vy * 0.995 }
      else b8
  let b10 :=
    if b9.y - b9.r < 0 then
      let w1 := if b9.vy < 0 then -b9.vy * 0.65 else b9.vy
      { b9 with y := b9.r, vy := if |w1| < 5 then 0 else w1, vx := b9.vx * 0.995 }
    else b9
  if b10.y + b10.r > cssH then
    let w2 := if b10.vy > 0 then -b10.vy * (if isMobile then 0.72 else 0.68) else b10.vy
    { b10 with y := cssH - b10.r, vy := if |w2| < 5 then 0 else w2,
               vx := b10.vx * (if isMobile then 0.992 else 0.995) }
  else b10

/-- Fade-out bookkeeping ~1s after escape; the `Bool` marks "fully faded,
queue for removal". -/
def fadeStep (now : ℝ) (b11 : Ball) : Ball × Bool :=
  if b11.escapedAt = none then (b11, false)
  else
    let elapsed := now - b11.escapedAt.getD 0
    if elapsed > 1000 then
      let op := max 0 (1 - (elapsed - 1000) / 400)
      ({ b11 with opacity := some op }, decide (op ≤ 0))
    else (b11, false)

/-- One iteration of the per-ball loop of `stepSimulation`, composing the
stages above.  `n` is the live `balls.length` (the array itself is only
mutated after the loop). -/
def processOne (isMobile : Bool) (cx cy R cssW cssH gapStart gapLen now dt : ℝ)
    (n : ℕ) (spawnEnabled : Bool) (rngf : ℕ → ℝ) (acc : LoopAcc) (ib : ℕ × Ball) : LoopAcc :=
  let b4 := integrateBall isMobile dt ib.2
  let esc := escapeStep cx cy R gapStart gapLen now n spawnEnabled rngf acc.k acc.nid b4
  let rr := graceRingStep cx cy R gapStart gapLen now acc.glow esc.1
  let b11 := wallsStep isMobile cssW cssH rr.1
  let fade := fadeStep now b11
  { processed := acc.processed ++ [fade.1],
    toSpawn := acc.toSpawn ++ esc.2.1,
    toRemove := if fade.2 then acc.toRemove ++ [ib.1] else acc.toRemove,
    k := esc.2.2.1, nid := esc.2.2.2, glow := rr.2 }

structure SimState where
  balls : List Ball
  spawnEnabled : Bool
  gapStart : ℝ
  ringGlow : ℝ
  nextId : ℕ
  rngIdx : ℕ

/-- Tail of `stepSimulation`: the zero-population safety reseed
(`if (balls.length === 0) balls.push(makeBall(cx2, cy2, initialRadius))`)
and the write-back of the step's state. -/
def finishStep (rngf : ℕ → ℝ) (cx cy : ℝ) (spawnEnabled : Bool) (gapStart glow2 : ℝ)
    (k nid : ℕ) (balls4 : List Ball) : SimState :=
  if balls4.length = 0 then
    let mk := makeBall rngf k nid cx cy initialRadius
    { balls := balls4 ++ [mk.1], spawnEnabled := spawnEnabled, gapStart := gapStart,
      ringGlow := glow2, nextId := mk.2.2, rngIdx := mk.2.1 }
  else
    { balls := balls4, spawnEnabled := spawnEnabled, gapStart := gapStart,
      ringGlow := glow2, nextId := nid, rngIdx := k }

/-- `stepSimulation(dt)` of the `RotatingGateBalls` variant: throttle
hysteresis, gap rotation, the per-ball loop, glow decay, pairwise
resolution, queued spawns, descending removal of fully faded balls, and the
zero-population safety reseed. -/
def stepSimulation (rngf : ℕ → ℝ) (isMobile : Bool) (cx cy R cssW cssH now dt : ℝ)
    (st : SimState) : SimState :=
  let spawnEnabled := if st.balls.length ≥ 20 then false
    else if st.balls.length ≤ 1 then true else st.spawnEnabled
  let gapLen := π * 2 * gapPercent
  let gapStart := wrapAngle (st.gapStart + rotationSpeed * dt)
  let acc := st.balls.enum.foldl
    (processOne isMobile cx cy R cssW cssH gapStart gapLen now dt st.balls.length spawnEnabled rngf)
    ⟨[], [], [], st.rngIdx, st.nextId, st.ringGlow⟩
  let glow2 := max 0 (acc.glow - dt * 1.0)
  let balls2 := resolveBallBallCollisions acc.processed
  let balls3 := balls2 ++ acc.toSpawn
  let balls4 := (insertionSortDesc acc.toRemove).foldl (fun bs idx => bs.eraseIdx idx) balls3
  finishStep rngf cx cy spawnEnabled gapStart glow2 acc.k acc.nid balls4

end Gate

/-! ### Geometry claims -/

/-- The spec's reading of arc membership: the wrapped angle lies in
`[wrap(arcStart), wrap(arcStart) + arcLen]`, taken modulo `2π`. -/
def inArcSpec (angle arcStart arcLen : ℝ) : Prop :=
  (wrapAngle angle ≥ wrapAngle arcStart ∧ wrapAngle angle ≤ wrapAngle arcStart + arcLen) ∨
  (wrapAngle angle + π * 2 ≥ wrapAngle arcStart ∧ wrapAngle angle + π * 2 ≤ wrapAngle arcStart + arcLen)

lemma angleInArc_iff_spec (angle arcStart arcLen : ℝ) :
    angleInArc angle arcStart arcLen ↔ inArcSpec angle arcStart arcLen := by
  have ha := wrapAngle_bounds angle
  have hs := wrapAngle_bounds arcStart
  unfold angleInArc inArcSpec
  by_cases h : wrapAngle arcStart + arcLen < π * 2
  · rw [if_pos h]
    constructor
    · intro hc; exact Or.inl hc
    · rintro (hc | ⟨h1, h2⟩)
      · exact hc
      · exfalso; linarith [ha.1]
  · rw [if_neg h]
    constructor
    · rintro (h1 | h1)
      · exact Or.inl ⟨h1, by linarith [ha.2, not_lt.mp h]⟩
      · exact Or.inr ⟨by linarith [hs.2, ha.1], by linarith⟩
    · rintro (⟨h1, h2⟩ | ⟨h1, h2⟩)
      · exact Or.inl h1
      · exact Or.inr (by linarith)

/-- C6: `wrapAngle` lands in `[0, 2π)` for every real input. -/
theorem spec_c6_wrapAngle_range :
    ∀ theta : ℝ, 0 ≤ wrapAngle theta ∧ wrapAngle theta < π * 2 :=
  fun theta => wrapAngle_bounds theta

/-- C7: `angleInArc` agrees with membership of the wrapped angle in
`[wrap(arcStart), wrap(arcStart)+arcLen]` modulo `2π`, and decides the spec's
sample arcs: non-wrapping `[0, π/2]` (45° in, 180° out) and wrapping
`[315°, 315°+90°]` (350° and 10° in, 180° out). -/
theorem spec_c7_angleInArc :
    (∀ angle arcStart arcLen : ℝ,
        angleInArc angle arcStart arcLen ↔ inArcSpec angle arcStart arcLen) ∧
    angleInArc (π / 4) 0 (π / 2) ∧ ¬ angleInArc π 0 (π / 2) ∧
    angleInArc (35 * π / 18) (7 * π / 4) (π / 2) ∧
    angleInArc (π / 18) (7 * π / 4) (π / 2) ∧
    ¬ angleInArc π (7 * π / 4) (π / 2) := by
  have hpi := Real.pi_pos
  have w0 : wrapAngle 0 = 0 := wrapAngle_eq_self le_rfl (by linarith)
  have w1 : wrapAngle (π / 4) = π / 4 := wrapAngle_eq_self (by linarith) (by linarith)
  have wpi : wrapAngle π = π := wrapAngle_eq_self (by linarith) (by linarith)
  have w74 : wrapAngle (7 * π / 4) = 7 * π / 4 := wrapAngle_eq_self (by linarith) (by linarith)
  have w35 : wrapAngle (35 * π / 18) = 35 * π / 18 := wrapAngle_eq_self (by linarith) (by linarith)
  have w18 : wrapAngle (π / 18) = π / 18 := wrapAngle_eq_self (by linarith) (by linarith)
  refine ⟨angleInArc_iff_spec, ?_, ?_, ?_, ?_, ?_⟩
  · unfold angleInArc
    rw [w1, w0, if_pos (by linarith)]
    exact ⟨by linarith, by linarith⟩
  · unfold angleInArc
    rw [wpi, w0, if_pos (by linarith)]
    rintro ⟨-, h2⟩; linarith
  · unfold angleInArc
    rw [w35, w74, if_neg (by intro hlt; linarith)]
    exact Or.inl (by linarith)
  · unfold angleInArc
    rw [w18, w74, if_neg (by intro hlt; linarith)]
    exact Or.inr (by linarith)
  · unfold angleInArc
    rw [wpi, w74, if_neg (by intro hlt; linarith)]
    rintro (h | h) <;> linarith

/-! ### Hypot lemmas -/

lemma hypot_nonneg (x y : ℝ) : 0 ≤ hypot x y := Real.sqrt_nonneg _

lemma hypot_eq_zero_iff (x y : ℝ) : hypot x y = 0 ↔ x = 0 ∧ y = 0 := by
  unfold hypot
  rw [Real.sqrt_eq_zero (by positivity)]
  constructor
  · intro h
    constructor
    · have hx : x ^ 2 = 0 := by nlinarith [sq_nonneg x, sq_nonneg y]
      exact (pow_eq_zero_iff two_ne_zero).mp hx
    · have hy : y ^ 2 = 0 := by nlinarith [sq_nonneg x, sq_nonneg y]
      exact (pow_eq_zero_iff two_ne_zero).mp hy
  · rintro ⟨hx, hy⟩
    rw [hx, hy]; norm_num

lemma hypot_scale (c x y : ℝ) : hypot (c * x) (c * y) = |c| * hypot x y := by
  unfold hypot
  rw [show (c * x) ^ 2 + (c * y) ^ 2 = c ^ 2 * (x ^ 2 + y ^ 2) by ring,
    Real.sqrt_mul (sq_nonneg c), Real.sqrt_sq_eq_abs]

lemma hypot_x_axis (x : ℝ) (hx : 0 ≤ x) : hypot x 0 = x := by
  unfold hypot
  rw [show x ^ 2 + 0 ^ 2 = x ^ 2 by ring]
  exact Real.sqrt_sq hx

/-- C8: after `resolveWallCollision` the center distance is at most `R - r`,
and whenever the incoming distance exceeded the target radius
`R - r - 0.8` the ball is snapped to exactly that radius. -/
theorem spec_c8_wall_containment (ew : ℝ) (b : Minimal.Ball) (cx cy R : ℝ)
    (hR : b.r + 0.8 ≤ R) :
    hypot ((Minimal.resolveWallCollision ew b cx cy R).x - cx)
        ((Minimal.resolveWallCollision ew b cx cy R).y - cy) ≤ R - b.r ∧
    (hypot (b.x - cx) (b.y - cy) > R - b.r - 0.8 →
      hypot ((Minimal.resolveWallCollision ew b cx cy R).x - cx)
          ((Minimal.resolveWallCollision ew b cx cy R).y - cy) = R - b.r - 0.8) := by
  have htg : (0 : ℝ) ≤ R - b.r - 0.8 := by linarith
  simp only [Minimal.resolveWallCollision, ringDist, ringNx, ringNy]
  by_cases hz : hypot (b.x - cx) (b.y - cy) = 0
  · obtain ⟨hdx, hdy⟩ := (hypot_eq_zero_iff _ _).mp hz
    rw [hz, if_pos rfl]
    by_cases hgt : (1e-6 : ℝ) > R - b.r - 0.8
    · rw [if_pos hgt]
      simp only [hdx, hdy, zero_div, zero_mul, add_zero]
      constructor
      · rw [show cx - cx = 0 by ring, show cy - cy = 0 by ring]
        rw [hypot_x_axis 0 le_rfl]
        linarith
      · intro hcontra
        exfalso; linarith
    · rw [if_neg hgt]
      constructor
      · rw [hz]; linarith
      · intro hcontra; exfalso; linarith
  · rw [if_neg hz]
    have hd0 : 0 < hypot (b.x - cx) (b.y - cy) :=
      lt_of_le_of_ne (hypot_nonneg _ _) (Ne.symm hz)
    by_cases hgt : hypot (b.x - cx) (b.y - cy) > R - b.r - 0.8
    · rw [if_pos hgt]
      have key :
          hypot (cx + (b.x - cx) / hypot (b.x - cx) (b.y - cy) * (R - b.r - 0.8) - cx)
            (cy + (b.y - cy) / hypot (b.x - cx) (b.y - cy) * (R - b.r - 0.8) - cy)
            = R - b.r - 0.8 := by
        rw [show cx + (b.x - cx) / hypot (b.x - cx) (b.y - cy) * (R - b.r - 0.8) - cx
              = (R - b.r - 0.8) / hypot (b.x - cx) (b.y - cy) * (b.x - cx) by ring]
        rw [show cy + (b.y - cy) / hypot (b.x - cx) (b.y - cy) * (R - b.r - 0.8) - cy
              = (R - b.r - 0.8) / hypot (b.x - cx) (b.y - cy) * (b.y - cy) by ring]
        rw [hypot_scale]
        rw [abs_of_nonneg (div_nonneg htg (le_of_lt hd0))]
        field_simp
      constructor
      · simp only []
        rw [key]; linarith
      · intro _; rw [key]
    · rw [if_neg hgt]
      constructor
      · linarith [not_lt.mp hgt]
      · intro hcontra; exact absurd hcontra hgt

def c8ball : Minimal.Ball := ⟨1, 200, 0, 10, 0, 8, "", 0, 0⟩

/-- Witness for C8 at a concrete penetrating ball. -/
theorem spec_c8_wall_containment_witness :
    (c8ball.r + 0.8 ≤ (100 : ℝ)) ∧
    (hypot (c8ball.x - 0) (c8ball.y - 0) > 100 - c8ball.r - 0.8) ∧
    (hypot ((Minimal.resolveWallCollision 0.98 c8ball 0 0 100).x - 0)
        ((Minimal.resolveWallCollision 0.98 c8ball 0 0 100).y - 0) ≤ 100 - c8ball.r) ∧
    (hypot ((Minimal.resolveWallCollision 0.98 c8ball 0 0 100).x - 0)
        ((Minimal.resolveWallCollision 0.98 c8ball 0 0 100).y - 0) = 100 - c8ball.r - 0.8) := by
  have h200 : hypot (c8ball.x - 0) (c8ball.y - 0) = 200 := by
    show hypot ((200 : ℝ) - 0) ((0 : ℝ) - 0) = 200
    rw [show (200 : ℝ) - 0 = 200 by norm_num, show (0 : ℝ) - 0 = 0 by norm_num]
    exact hypot_x_axis 200 (by norm_num)
  have hin : hypot (c8ball.x - 0) (c8ball.y - 0) > 100 - c8ball.r - 0.8 := by
    rw [h200, show c8ball.r = 8 from rfl]; norm_num
  exact ⟨by norm_num [c8ball], hin,
    (spec_c8_wall_containment 0.98 c8ball 0 0 100 (by norm_num [c8ball])).1,
    (spec_c8_wall_containment 0.98 c8ball 0 0 100 (by norm_num [c8ball])).2 hin⟩

/-- C10: one pairwise resolution applies equal-and-opposite positional
corrections (half the overlap each) and equal-and-opposite velocity
impulses, hence preserves the velocity sum and the center midpoint. -/
theorem spec_c10_pair_symmetry :
    (∀ a b : Minimal.Ball,
      (Minimal.resolvePair a b).1.x - a.x = -((Minimal.resolvePair a b).2.x - b.x) ∧
      (Minimal.resolvePair a b).1.y - a.y = -((Minimal.resolvePair a b).2.y - b.y) ∧
      (Minimal.resolvePair a b).1.vx - a.vx = -((Minimal.resolvePair a b).2.vx - b.vx) ∧
      (Minimal.resolvePair a b).1.vy - a.vy = -((Minimal.resolvePair a b).2.vy - b.vy) ∧
      (Minimal.resolvePair a b).1.vx + (Minimal.resolvePair a b).2.vx = a.vx + b.vx ∧
      (Minimal.resolvePair a b).1.vy + (Minimal.resolvePair a b).2.vy = a.vy + b.vy ∧
      (Minimal.resolvePair a b).1.x + (Minimal.resolvePair a b).2.x = a.x + b.x ∧
      (Minimal.resolvePair a b).1.y + (Minimal.resolvePair a b).2.y = a.y + b.y) ∧
    (∀ a b : Minimal.Ball, hypot (b.x - a.x) (b.y - a.y) ≠ 0 →
      hypot (b.x - a.x) (b.y - a.y) < a.r + b.r →
      hypot ((Minimal.resolvePair a b).1.x - a.x) ((Minimal.resolvePair a b).1.y - a.y)
          = (a.r + b.r - hypot (b.x - a.x) (b.y - a.y)) / 2 ∧
      hypot ((Minimal.resolvePair a b).2.x - b.x) ((Minimal.resolvePair a b).2.y - b.y)
          = (a.r + b.r - hypot (b.x - a.x) (b.y - a.y)) / 2) := by
  constructor
  · intro a b
    simp only [Minimal.resolvePair]
    split_ifs with h1 h2 <;>
      exact ⟨by ring, by ring, by ring, by ring, by ring, by ring, by ring, by ring⟩
  · intro a b hd hlt
    have hd0 : 0 < hypot (b.x - a.x) (b.y - a.y) :=
      lt_of_le_of_ne (hypot_nonneg _ _) (Ne.symm hd)
    have hc : 0 ≤ (a.r + b.r - hypot (b.x - a.x) (b.y - a.y)) / 2 := by linarith
    simp only [Minimal.resolvePair]
    rw [if_neg hd]
    rw [if_pos hlt]
    have goalA :
        hypot (a.x - (b.x - a.x) / hypot (b.x - a.x) (b.y - a.y)
            * ((a.r + b.r - hypot (b.x - a.x) (b.y - a.y)) / 2) - a.x)
          (a.y - (b.y - a.y) / hypot (b.x - a.x) (b.y - a.y)
            * ((a.r + b.r - hypot (b.x - a.x) (b.y - a.y)) / 2) - a.y)
          = (a.r + b.r - hypot (b.x - a.x) (b.y - a.y)) / 2 := by
      rw [show a.x - (b.x - a.x) / hypot (b.x - a.x) (b.y - a.y)
            * ((a.r + b.r - hypot (b.x - a.x) (b.y - a.y)) / 2) - a.x
          = -((a.r + b.r - hypot (b.x - a.x) (b.y - a.y)) / 2)
              / hypot (b.x - a.x) (b.y - a.y) * (b.x - a.x) by ring]
      rw [show a.y - (b.y - a.y) / hypot (b.x - a.x) (b.y - a.y)
            * ((a.r + b.r - hypot (b.x - a.x) (b.y - a.y)) / 2) - a.y
          = -((a.r + b.r - hypot (b.x - a.x) (b.y - a.y)) / 2)
              / hypot (b.x - a.x) (b.y - a.y) * (b.y - a.y) by ring]
      rw [hypot_scale, abs_div, abs_neg, abs_of_nonneg hc,
        abs_of_nonneg (le_of_lt hd0)]
      field_simp
      ring
    have goalB :
        hypot (b.x + (b.x - a.x) / hypot (b.x - a.x) (b.y - a.y)
            * ((a.r + b.r - hypot (b.x - a.x) (b.y - a.y)) / 2) - b.x)
          (b.y + (b.y - a.y) / hypot (b.x - a.x) (b.y - a.y)
            * ((a.r + b.r - hypot (b.x - a.x) (b.y - a.y)) / 2) - b.y)
          = (a.r + b.r - hypot (b.x - a.x) (b.y - a.y)) / 2 := by
      rw [show b.x + (b.x - a.x) / hypot (b.x - a.x) (b.y - a.y)
            * ((a.r + b.r - hypot (b.x - a.x) (b.y - a.y)) / 2) - b.x
          = ((a.r + b.r - hypot (b.x - a.x) (b.y - a.y)) / 2)
              / hypot (b.x - a.x) (b.y - a.y) * (b.x - a.x) by ring]
      rw [show b.y + (b.y - a.y) / hypot (b.x - a.x) (b.y - a.y)
            * ((a.r + b.r - hypot (b.x - a.x) (b.y - a.y)) / 2) - b.y
          = ((a.r + b.r - hypot (b.x - a.x) (b.y - a.y)) / 2)
              / hypot (b.x - a.x) (b.y - a.y) * (b.y - a.y) by ring]
      rw [hypot_scale, abs_div, abs_of_nonneg hc, abs_of_nonneg (le_of_lt hd0)]
      field_simp
      ring
    split_ifs with h2
    · exact ⟨goalA, goalB⟩
    · exact ⟨goalA, goalB⟩

def c10a : Minimal.Ball := ⟨1, 0, 0, 3, 4, 10, "", 0, 0⟩

def c10b : Minimal.Ball := ⟨2, 18, 0, -5, 2, 10, "", 0, 0⟩

/-- Witness for C10 at a concrete overlapping pair. -/
theorem spec_c10_pair_symmetry_witness :
    ((Minimal.resolvePair c10a c10b).1.vx + (Minimal.resolvePair c10a c10b).2.vx
        = c10a.vx + c10b.vx) ∧
    hypot ((Minimal.resolvePair c10a c10b).1.x - c10a.x)
        ((Minimal.resolvePair c10a c10b).1.y - c10a.y)
      = (c10a.r + c10b.r - hypot (c10b.x - c10a.x) (c10b.y - c10a.y)) / 2 := by
  have h18 : hypot (c10b.x - c10a.x) (c10b.y - c10a.y) = 18 := by
    show hypot ((18 : ℝ) - 0) ((0 : ℝ) - 0) = 18
    rw [show (18 : ℝ) - 0 = 18 by norm_num, show (0 : ℝ) - 0 = 0 by norm_num]
    exact hypot_x_axis 18 (by norm_num)
  refine ⟨(spec_c10_pair_symmetry.1 c10a c10b).2.2.2.2.1, ?_⟩
  exact (spec_c10_pair_symmetry.2 c10a c10b (by rw [h18]; norm_num)
    (by rw [h18]; show (18 : ℝ) < c10a.r + c10b.r; norm_num [c10a, c10b])).1

/-! ### Evaluation of the pairwise pass on small lists -/

lemma resolveBBC_singleton (a : Minimal.Ball) :
    Minimal.resolveBallBallCollisions [a] = [a] := by
  have hr : List.range 1 = [0] := by decide
  simp [Minimal.resolveBallBallCollisions, hr]

lemma resolveBBC_pair (a b : Minimal.Ball) :
    Minimal.resolveBallBallCollisions [a, b] =
      [(Minimal.resolvePair a b).1, (Minimal.resolvePair a b).2] := by
  have hr : List.range 2 = [0, 1] := by decide
  simp only [Minimal.resolveBallBallCollisions, List.length_cons, List.length_nil, hr]
  simp [List.foldl_cons, List.foldl_nil]

/-- C9: two balls overlapping by 2 with zero velocities: one pairwise pass
separates the centers to exactly `r_a + r_b` and applies no impulse. -/
theorem spec_c9_overlap_scenario (a b : Minimal.Ball)
    (hsep : hypot (b.x - a.x) (b.y - a.y) = a.r + b.r - 2)
    (hrr : 2 < a.r + b.r)
    (hva : a.vx = 0 ∧ a.vy = 0) (hvb : b.vx = 0 ∧ b.vy = 0) :
    hypot (((Minimal.resolveBallBallCollisions [a, b]).getD 1 default).x
          - ((Minimal.resolveBallBallCollisions [a, b]).getD 0 default).x)
        (((Minimal.resolveBallBallCollisions [a, b]).getD 1 default).y
          - ((Minimal.resolveBallBallCollisions [a, b]).getD 0 default).y)
        = a.r + b.r ∧
    ((Minimal.resolveBallBallCollisions [a, b]).getD 0 default).vx = 0 ∧
    ((Minimal.resolveBallBallCollisions [a, b]).getD 0 default).vy = 0 ∧
    ((Minimal.resolveBallBallCollisions [a, b]).getD 1 default).vx = 0 ∧
    ((Minimal.resolveBallBallCollisions [a, b]).getD 1 default).vy = 0 := by
  rw [resolveBBC_pair]
  simp only [List.getD_cons_zero, List.getD_cons_succ]
  have hd0 : 0 < hypot (b.x - a.x) (b.y - a.y) := by rw [hsep]; linarith
  have hdne : hypot (b.x - a.x) (b.y - a.y) ≠ 0 := ne_of_gt hd0
  have hlt : hypot (b.x - a.x) (b.y - a.y) < a.r + b.r := by rw [hsep]; linarith
  simp only [Minimal.resolvePair]
  rw [if_neg hdne, if_pos hlt]
  rw [if_neg (by
    rw [hva.1, hva.2, hvb.1, hvb.2]
    simp)]
  refine ⟨?_, hva.1, hva.2, hvb.1, hvb.2⟩
  have hsub : b.x + (b.x - a.x) / hypot (b.x - a.x) (b.y - a.y)
        * ((a.r + b.r - hypot (b.x - a.x) (b.y - a.y)) / 2)
      - (a.x - (b.x - a.x) / hypot (b.x - a.x) (b.y - a.y)
        * ((a.r + b.r - hypot (b.x - a.x) (b.y - a.y)) / 2))
      = (a.r + b.r) / hypot (b.x - a.x) (b.y - a.y) * (b.x - a.x) := by
    field_simp
    ring
  have hsub2 : b.y + (b.y - a.y) / hypot (b.x - a.x) (b.y - a.y)
        * ((a.r + b.r - hypot (b.x - a.x) (b.y - a.y)) / 2)
      - (a.y - (b.y - a.y) / hypot (b.x - a.x) (b.y - a.y)
        * ((a.r + b.r - hypot (b.x - a.x) (b.y - a.y)) / 2))
      = (a.r + b.r) / hypot (b.x - a.x) (b.y - a.y) * (b.y - a.y) := by
    field_simp
    ring
  rw [hsub, hsub2, hypot_scale, abs_div, abs_of_nonneg (by linarith : (0:ℝ) ≤ a.r + b.r),
    abs_of_nonneg (le_of_lt hd0)]
  field_simp

def c9a : Minimal.Ball := ⟨1, 0, 0, 0, 0, 10, "", 0, 0⟩

def c9b : Minimal.Ball := ⟨2, 18, 0, 0, 0, 10, "", 0, 0⟩

/-- Witness for C9 at the concrete 2-unit-overlap pair. -/
theorem spec_c9_overlap_scenario_witness :
    hypot (((Minimal.resolveBallBallCollisions [c9a, c9b]).getD 1 default).x
          - ((Minimal.resolveBallBallCollisions [c9a, c9b]).getD 0 default).x)
        (((Minimal.resolveBallBallCollisions [c9a, c9b]).getD 1 default).y
          - ((Minimal.resolveBallBallCollisions [c9a, c9b]).getD 0 default).y)
        = c9a.r + c9b.r ∧
    ((Minimal.resolveBallBallCollisions [c9a, c9b]).getD 0 default).vx = 0 ∧
    ((Minimal.resolveBallBallCollisions [c9a, c9b]).getD 0 default).vy = 0 ∧
    ((Minimal.resolveBallBallCollisions [c9a, c9b]).getD 1 default).vx = 0 ∧
    ((Minimal.resolveBallBallCollisions [c9a, c9b]).getD 1 default).vy = 0 := by
  have h18 : hypot (c9b.x - c9a.x) (c9b.y - c9a.y) = 18 := by
    show hypot ((18 : ℝ) - 0) ((0 : ℝ) - 0) = 18
    rw [show (18 : ℝ) - 0 = 18 by norm_num, show (0 : ℝ) - 0 = 0 by norm_num]
    exact hypot_x_axis 18 (by norm_num)
  exact spec_c9_overlap_scenario c9a c9b
    (by rw [h18]; show (18 : ℝ) = c9a.r + c9b.r - 2; norm_num [c9a, c9b])
    (by show (2 : ℝ) < c9a.r + c9b.r; norm_num [c9a, c9b])
    (by constructor <;> rfl) (by constructor <;> rfl)

/-! ### Ring-normal evaluation on the positive x axis -/

lemma ringDist_pos_x (d : ℝ) (hd : 0 < d) : ringDist d 0 0 0 = d := by
  simp only [ringDist]
  rw [sub_zero, sub_zero, hypot_x_axis d (le_of_lt hd), if_neg (ne_of_gt hd)]

lemma ringNx_pos_x (d : ℝ) (hd : 0 < d) : ringNx d 0 0 0 = 1 := by
  simp only [ringNx]
  rw [ringDist_pos_x d hd, sub_zero]
  exact div_self (ne_of_gt hd)

lemma ringNy_pos_x (d : ℝ) (hd : 0 < d) : ringNy d 0 0 0 = 0 := by
  simp only [ringNy]
  rw [sub_zero, ringDist_pos_x d hd]
  simp

lemma ringVn_pos_x (d vx vy : ℝ) (hd : 0 < d) : ringVn d 0 vx vy 0 0 = vx := by
  simp only [ringVn]
  rw [ringNx_pos_x d hd, ringNy_pos_x d hd]
  ring

def c3ball : Gate.Ball := ⟨1, 200, 0, 10, 0, 8, "", 0, 0, 0, none, false, none, [], 0, 0⟩

/-- C3 counterexample: with a configured wall restitution of 2 the resolver
reflects with the clamped coefficient `min(1, 2) = 1`, not with the
configured value: the resulting `vx` is `-9.99`, while the claimed update
`v - (1+e)·vn·n` with `e = 2` would give `-19.98`. -/
theorem spec_c3_counterexample :
    (Gate.resolveRingCollision 2 c3ball 0 0 100 0).1.vx = -9.99 ∧
    0.999 * (c3ball.vx - (1 + 2) * ringVn c3ball.x c3ball.y c3ball.vx c3ball.vy 0 0
        * ringNx c3ball.x c3ball.y 0 0) = -19.98 ∧
    (-9.99 : ℝ) ≠ -19.98 := by
  have hx : c3ball.x = 200 := rfl
  have hy : c3ball.y = 0 := rfl
  have hvx : c3ball.vx = 10 := rfl
  have hvy : c3ball.vy = 0 := rfl
  have hr : c3ball.r = 8 := rfl
  have hd : ringDist c3ball.x c3ball.y 0 0 = 200 := by
    rw [hx, hy]; exact ringDist_pos_x 200 (by norm_num)
  have hnx : ringNx c3ball.x c3ball.y 0 0 = 1 := by
    rw [hx, hy]; exact ringNx_pos_x 200 (by norm_num)
  have hny : ringNy c3ball.x c3ball.y 0 0 = 0 := by
    rw [hx, hy]; exact ringNy_pos_x 200 (by norm_num)
  have hvn : ringVn c3ball.x c3ball.y c3ball.vx c3ball.vy 0 0 = 10 := by
    rw [hx, hy, hvx, hvy]; exact ringVn_pos_x 200 10 0 (by norm_num)
  refine ⟨?_, ?_, by norm_num⟩
  · simp only [Gate.resolveRingCollision, hd, hnx, hny, hvn, hr]
    rw [if_pos (by norm_num), if_pos (by norm_num)]
    rw [hvx]; norm_num
  · rw [hvn, hnx, hvx]
    norm_num

/-- C3 amended: when the incoming distance exceeds the target radius and the
outward speed exceeds the threshold 5, the velocity is updated to
`0.999 · (v - (1+e')·vn·n)` where `e' = min(1, configured restitution)` —
configured values greater than 1 are clamped to 1. -/
theorem spec_c3_wall_reflection (ew : ℝ) (b : Gate.Ball) (cx cy R glow : ℝ)
    (hdist : ringDist b.x b.y cx cy > R - b.r - 0.8)
    (hvn : ringVn b.x b.y b.vx b.vy cx cy > 5) :
    (Gate.resolveRingCollision ew b cx cy R glow).1.vx
        = 0.999 * (b.vx - (1 + min 1.0 ew) * ringVn b.x b.y b.vx b.vy cx cy
            * ringNx b.x b.y cx cy) ∧
    (Gate.resolveRingCollision ew b cx cy R glow).1.vy
        = 0.999 * (b.vy - (1 + min 1.0 ew) * ringVn b.x b.y b.vx b.vy cx cy
            * ringNy b.x b.y cx cy) := by
  simp only [Gate.resolveRingCollision]
  rw [if_pos hdist, if_pos hvn, if_pos hvn]
  exact ⟨by ring, by ring⟩

/-- Witness for the amended C3 at a concrete penetrating, fast ball with the
variant's configured restitution 1.00. -/
theorem spec_c3_wall_reflection_witness :
    (ringDist c3ball.x c3ball.y 0 0 > 100 - c3ball.r - 0.8) ∧
    (ringVn c3ball.x c3ball.y c3ball.vx c3ball.vy 0 0 > 5) ∧
    ((Gate.resolveRingCollision 1.00 c3ball 0 0 100 0).1.vx
        = 0.999 * (c3ball.vx - (1 + min 1.0 1.00)
            * ringVn c3ball.x c3ball.y c3ball.vx c3ball.vy 0 0
            * ringNx c3ball.x c3ball.y 0 0) ∧
      (Gate.resolveRingCollision 1.00 c3ball 0 0 100 0).1.vy
        = 0.999 * (c3ball.vy - (1 + min 1.0 1.00)
            * ringVn c3ball.x c3ball.y c3ball.vx c3ball.vy 0 0
            * ringNy c3ball.x c3ball.y 0 0)) := by
  have hx : c3ball.x = 200 := rfl
  have hy : c3ball.y = 0 := rfl
  have hvx : c3ball.vx = 10 := rfl
  have hvy : c3ball.vy = 0 := rfl
  have hr : c3ball.r = 8 := rfl
  have hd : ringDist c3ball.x c3ball.y 0 0 = 200 := by
    rw [hx, hy]; exact ringDist_pos_x 200 (by norm_num)
  have hvn : ringVn c3ball.x c3ball.y c3ball.vx c3ball.vy 0 0 = 10 := by
    rw [hx, hy, hvx, hvy]; exact ringVn_pos_x 200 10 0 (by norm_num)
  refine ⟨by rw [hd, hr]; norm_num, by rw [hvn]; norm_num, ?_⟩
  exact spec_c3_wall_reflection 1.00 c3ball 0 0 100 0
    (by rw [hd, hr]; norm_num) (by rw [hvn]; norm_num)

/-! ### Arctan bounds and the concrete escape scenario -/

lemma arctan_nonneg' (x : ℝ) (hx : 0 ≤ x) : 0 ≤ arctan x := by
  rw [← Real.arctan_zero]
  exact Real.arctan_strictMono.monotone hx

lemma arctan_le_self' (x : ℝ) (hx : 0 ≤ x) : arctan x ≤ x := by
  rcases eq_or_lt_of_le hx with h | h
  · rw [← h, Real.arctan_zero]
  · have h1 : 0 < arctan x := by
      rw [← Real.arctan_zero]; exact Real.arctan_strictMono h
    have h2 : arctan x < π / 2 := Real.arctan_lt_pi_div_two x
    have h3 := Real.lt_tan h1 h2
    rw [Real.tan_arctan] at h3
    linarith

lemma atan2_yx_pos (y x : ℝ) (hx : 0 < x) : atan2 y x = arctan (y / x) := by
  unfold atan2; rw [if_pos hx]

lemma atan2_zero_pos (x : ℝ) (hx : 0 < x) : atan2 0 x = 0 := by
  rw [atan2_yx_pos 0 x hx, zero_div, Real.arctan_zero]

/-- A ball on the positive x axis at distance `d ≥ 1004`, radius 3, moving
outward with `vx = 10`, satisfies the escape predicate for center `(0,0)`,
`R = 1000`, rotated gap start 6 and the minimal variant's gap length. -/
lemma escapePred_xaxis (d : ℝ) (hd : 1004 ≤ d) (b : Minimal.Ball)
    (hbx : b.x = d) (hby : b.y = 0) (hbvx : b.vx = 10) (hbvy : b.vy = 0) (hbr : b.r = 3) :
    Minimal.escapePredicate 0 0 1000 6 (π * 2 * Minimal.gapPercent) b := by
  have hd0 : (0 : ℝ) < d := by linarith
  have hA0 : 0 ≤ arctan (3 / 1000) := arctan_nonneg' _ (by norm_num)
  have hA1 : arctan (3 / 1000) ≤ 3 / 1000 := arctan_le_self' _ (by norm_num)
  have hpi1 := Real.pi_gt_d6
  have hpi2 := Real.pi_lt_d6
  simp only [Minimal.escapePredicate, hbx, hby, hbvx, hbvy, hbr, sub_zero]
  rw [hypot_x_axis d (le_of_lt hd0)]
  rw [atan2_zero_pos d hd0, atan2_yx_pos 3 1000 (by norm_num)]
  refine ⟨?_, by linarith, ?_⟩
  · have hlenmax : max 0 (π * 2 * Minimal.gapPercent - 2 * (arctan (3 / 1000) + 0.02))
        = π * 2 * Minimal.gapPercent - 2 * (arctan (3 / 1000) + 0.02) := by
      apply max_eq_right
      simp only [Minimal.gapPercent]
      norm_num
      linarith
    unfold angleInArc
    rw [hlenmax]
    rw [wrapAngle_eq_self (le_refl (0 : ℝ)) (by linarith)]
    rw [wrapAngle_eq_self (t := 6 + (arctan (3 / 1000) + 0.02))
      (by linarith) (by linarith)]
    rw [if_neg (by
      simp only [Minimal.gapPercent]
      intro hlt
      norm_num at hlt
      linarith)]
    right
    simp only [Minimal.gapPercent]
    norm_num
    linarith
  · rw [if_neg (ne_of_gt hd0), div_self (ne_of_gt hd0), zero_div]
    norm_num

/-! ### C4: escape debounce -/

lemma resolveWall_ticks (ew : ℝ) (b : Minimal.Ball) (cx cy R : ℝ) :
    (Minimal.resolveWallCollision ew b cx cy R).gapOutsideTicks = b.gapOutsideTicks := by
  simp only [Minimal.resolveWallCollision]
  split_ifs <;> rfl

lemma postGap_ticks (cx cy R gapStart gapLen now : ℝ) (b : Minimal.Ball) :
    (Minimal.postGap cx cy R gapStart gapLen now b).gapOutsideTicks = b.gapOutsideTicks := by
  simp only [Minimal.postGap]
  split_ifs <;> simp [resolveWall_ticks]

lemma integrate_ticks (dt : ℝ) (b : Minimal.Ball) :
    (Minimal.integrate dt b).gapOutsideTicks = b.gapOutsideTicks := rfl

lemma integrate_zero (b : Minimal.Ball) : Minimal.integrate 0 b = b := by
  cases b
  simp [Minimal.integrate, Minimal.gravity]

/-- C4: a ball that satisfies the escape predicate on this tick but whose
debounce counter was 0 (so the predicate has held for only 1 < 2 consecutive
ticks) is not classified as escaped and its counter becomes 1; a ball whose
predicate fails has its counter reset to 0. -/
theorem spec_c4_escape_debounce (cx cy R gapStart gapLen now dt : ℝ) (b b2 : Minimal.Ball)
    (h1 : Minimal.escapePredicate cx cy R gapStart gapLen (Minimal.integrate dt b))
    (h2 : b.gapOutsideTicks = 0)
    (h3 : ¬ Minimal.escapePredicate cx cy R gapStart gapLen (Minimal.integrate dt b2)) :
    (Minimal.processBall cx cy R gapStart gapLen now dt b).2 = false ∧
    (Minimal.processBall cx cy R gapStart gapLen now dt b).1.gapOutsideTicks = 1 ∧
    (Minimal.processBall cx cy R gapStart gapLen now dt b2).1.gapOutsideTicks = 0 := by
  have hti : (Minimal.integrate dt b).gapOutsideTicks = 0 := by
    rw [integrate_ticks]; exact h2
  refine ⟨?_, ?_, ?_⟩
  · simp only [Minimal.processBall]
    rw [if_pos h1, if_neg (by simp [hti])]
  · simp only [Minimal.processBall]
    rw [if_pos h1, if_neg (by simp [hti])]
    simp only [postGap_ticks]
    simp [hti]
  · simp only [Minimal.processBall]
    rw [if_neg h3]
    simp only [postGap_ticks]

def c4ball : Minimal.Ball := ⟨1, 1200, 0, 10, 0, 3, "", 0, 0⟩

def c4rest : Minimal.Ball := ⟨2, 0, 0, 0, 0, 3, "", 0, 0⟩

lemma c4rest_notpred :
    ¬ Minimal.escapePredicate 0 0 1000 6 (π * 2 * Minimal.gapPercent) c4rest := by
  intro h
  have h2 := h.2.1
  have hx : c4rest.x = 0 := rfl
  have hy : c4rest.y = 0 := rfl
  have hr : c4rest.r = 3 := rfl
  rw [hx, hy, hr] at h2
  rw [show (0:ℝ) - 0 = 0 by norm_num, hypot_x_axis 0 le_rfl] at h2
  norm_num at h2

/-- Witness for C4 at the concrete escaping and resting balls. -/
theorem spec_c4_escape_debounce_witness :
    Minimal.escapePredicate 0 0 1000 6 (π * 2 * Minimal.gapPercent)
      (Minimal.integrate 0 c4ball) ∧
    c4ball.gapOutsideTicks = 0 ∧
    ¬ Minimal.escapePredicate 0 0 1000 6 (π * 2 * Minimal.gapPercent)
      (Minimal.integrate 0 c4rest) ∧
    ((Minimal.processBall 0 0 1000 6 (π * 2 * Minimal.gapPercent) 0 0 c4ball).2 = false ∧
      (Minimal.processBall 0 0 1000 6 (π * 2 * Minimal.gapPercent) 0 0 c4ball).1.gapOutsideTicks = 1 ∧
      (Minimal.processBall 0 0 1000 6 (π * 2 * Minimal.gapPercent) 0 0 c4rest).1.gapOutsideTicks = 0) := by
  have hp : Minimal.escapePredicate 0 0 1000 6 (π * 2 * Minimal.gapPercent)
      (Minimal.integrate 0 c4ball) := by
    rw [integrate_zero]
    exact escapePred_xaxis 1200 (by norm_num) c4ball rfl rfl rfl rfl rfl
  have hnp : ¬ Minimal.escapePredicate 0 0 1000 6 (π * 2 * Minimal.gapPercent)
      (Minimal.integrate 0 c4rest) := by
    rw [integrate_zero]
    exact c4rest_notpred
  exact ⟨hp, rfl, hnp,
    spec_c4_escape_debounce 0 0 1000 6 (π * 2 * Minimal.gapPercent) 0 0 c4ball c4rest hp rfl hnp⟩

/-! ### C5: sub-minimum spawn radius is clamped, not dropped -/

lemma processBall_escaped_zero_dt (cx cy R gapStart gapLen now : ℝ) (b : Minimal.Ball)
    (h1 : Minimal.escapePredicate cx cy R gapStart gapLen b)
    (h2 : 1 ≤ b.gapOutsideTicks) :
    Minimal.processBall cx cy R gapStart gapLen now 0 b =
      ({ b with gapOutsideTicks := b.gapOutsideTicks + 1 }, true) := by
  simp only [Minimal.processBall, integrate_zero]
  rw [if_pos h1, if_pos (by simp; omega)]

/-- C5 amended: when spawning is enabled and the cap check passes, an escape
always creates exactly two children whose radius is
`max(minBallRadius, parent.r * 0.96)` — in particular the spawn is *not*
dropped when `parent.r * 0.96 < minBallRadius`; the radius is clamped up to
the minimum, and the sub-minimum guard can never fail. -/
theorem spec_c5_clamped_spawn (cx2 cy2 : ℝ) (rngf : ℕ → ℝ) (balls : List Minimal.Ball)
    (k nid idx : ℕ)
    (hcap : (balls.eraseIdx idx).length ≤ Minimal.maxBalls) :
    (∃ c1 c2 : Minimal.Ball,
      (Minimal.handleEscape true cx2 cy2 rngf (balls, k, nid) idx).1
          = balls.eraseIdx idx ++ [c1, c2] ∧
      c1.r = max Minimal.minBallRadius ((balls.getD idx default).r * 0.96) ∧
      c2.r = max Minimal.minBallRadius ((balls.getD idx default).r * 0.96)) ∧
    max Minimal.minBallRadius ((balls.getD idx default).r * 0.96) ≥ Minimal.minBallRadius := by
  refine ⟨?_, le_max_left _ _⟩
  simp only [Minimal.handleEscape]
  rw [if_pos trivial, if_pos ⟨hcap, le_max_left _ _⟩]
  exact ⟨_, _, rfl, rfl, rfl⟩

def rng0 : ℕ → ℝ := fun _ => 0

def c5ball : Minimal.Ball := ⟨1, 1200, 0, 10, 0, 3, "", 1, 0⟩

/-- Witness for the amended C5: the concrete escaped ball of radius 3 whose
shrunk radius `2.88` is below the minimum still produces two children. -/
theorem spec_c5_clamped_spawn_witness :
    (([c5ball].eraseIdx 0).length ≤ Minimal.maxBalls) ∧
    (c5ball.r * 0.96 < Minimal.minBallRadius) ∧
    ((∃ c1 c2 : Minimal.Ball,
      (Minimal.handleEscape true 0 0 rng0 ([c5ball], 0, 5) 0).1
          = [c5ball].eraseIdx 0 ++ [c1, c2] ∧
      c1.r = max Minimal.minBallRadius (([c5ball].getD 0 default).r * 0.96) ∧
      c2.r = max Minimal.minBallRadius (([c5ball].getD 0 default).r * 0.96)) ∧
    max Minimal.minBallRadius (([c5ball].getD 0 default).r * 0.96) ≥ Minimal.minBallRadius) := by
  refine ⟨by simp [Minimal.maxBalls], ?_, ?_⟩
  · show (3 : ℝ) * 0.96 < Minimal.minBallRadius
    simp only [Minimal.minBallRadius]
    norm_num
  · exact spec_c5_clamped_spawn 0 0 rng0 [c5ball] 0 5 0 (by simp [Minimal.maxBalls])

/-- C5 counterexample: the escaped ball has radius 3, so the shrunk child
radius `3 * 0.96 = 2.88` is below the minimum radius 3 — yet the tick still
creates two children (the population goes from 1 to 2): the spawn request is
not dropped. -/
theorem spec_c5_counterexample :
    c5ball.r * 0.96 < Minimal.minBallRadius ∧
    (Minimal.stepSimulation rng0 0 0 1000 0 0 ⟨[c5ball], false, 6, 5, 0⟩).balls.length = 2 := by
  constructor
  · show (3 : ℝ) * 0.96 < Minimal.minBallRadius
    simp only [Minimal.minBallRadius]
    norm_num
  · have hpred : Minimal.escapePredicate 0 0 1000 6 (π * 2 * Minimal.gapPercent) c5ball :=
      escapePred_xaxis 1200 (by norm_num) c5ball rfl rfl rfl rfl rfl
    have hgs : wrapAngle ((6:ℝ) + Minimal.rotationSpeed * 0) = 6 := by
      rw [show (6:ℝ) + Minimal.rotationSpeed * 0 = 6 by simp]
      exact wrapAngle_eq_self (by norm_num) (by linarith [Real.pi_gt_d6])
    simp only [Minimal.stepSimulation, List.length_cons, List.length_nil]
    rw [hgs]
    rw [List.map_cons, List.map_nil,
      processBall_escaped_zero_dt 0 0 1000 6 (π * 2 * Minimal.gapPercent) 0 c5ball hpred
        (by exact le_refl 1)]
    simp only [List.enum, List.enumFrom, List.map_cons, List.map_nil, List.filter_cons,
      List.filter_nil]
    norm_num
    show (List.foldl (Minimal.handleEscape true 0 0 rng0)
      ([{ c5ball with gapOutsideTicks := c5ball.gapOutsideTicks + 1 }], 0, 5)
      (insertionSortDesc [0])).1.length = 2
    rw [show insertionSortDesc [0] = [0] from rfl, List.foldl_cons, List.foldl_nil]
    simp only [Minimal.handleEscape]
    rw [if_pos trivial, if_pos ⟨by simp [Minimal.maxBalls], le_max_left _ _⟩]
    simp

def c1ballA : Minimal.Ball := ⟨1, 1200, 0, 10, 0, 3, "", 1, 0⟩

def c1ballB : Minimal.Ball := ⟨2, 1400, 0, 10, 0, 3, "", 1, 0⟩

/-- C1 counterexample: in the `PhysicsVisualMinimal` variant there is no
population floor: with spawning disabled by the hysteresis flag and two
balls escaping in the same tick, the tick ends with an empty particle set. -/
theorem spec_c1_counterexample :
    (Minimal.stepSimulation rng0 0 0 1000 0 0 ⟨[c1ballA, c1ballB], false, 6, 5, 0⟩).balls = [] := by
  have hpA : Minimal.escapePredicate 0 0 1000 6 (π * 2 * Minimal.gapPercent) c1ballA :=
    escapePred_xaxis 1200 (by norm_num) c1ballA rfl rfl rfl rfl rfl
  have hpB : Minimal.escapePredicate 0 0 1000 6 (π * 2 * Minimal.gapPercent) c1ballB :=
    escapePred_xaxis 1400 (by norm_num) c1ballB rfl rfl rfl rfl rfl
  have hgs : wrapAngle ((6:ℝ) + Minimal.rotationSpeed * 0) = 6 := by
    rw [show (6:ℝ) + Minimal.rotationSpeed * 0 = 6 by simp]
    exact wrapAngle_eq_self (by norm_num) (by linarith [Real.pi_gt_d6])
  simp only [Minimal.stepSimulation, List.length_cons, List.length_nil]
  rw [hgs]
  simp only [List.map_cons, List.map_nil]
  rw [processBall_escaped_zero_dt 0 0 1000 6 (π * 2 * Minimal.gapPercent) 0 c1ballA hpA
      (by exact le_refl 1),
    processBall_escaped_zero_dt 0 0 1000 6 (π * 2 * Minimal.gapPercent) 0 c1ballB hpB
      (by exact le_refl 1)]
  simp only [List.enum, List.enumFrom, List.map_cons, List.map_nil, List.filter_cons,
    List.filter_nil]
  norm_num
  rw [resolveBBC_pair]
  have hd : hypot (({ c1ballB with gapOutsideTicks := c1ballB.gapOutsideTicks + 1 } : Minimal.Ball).x
      - ({ c1ballA with gapOutsideTicks := c1ballA.gapOutsideTicks + 1 } : Minimal.Ball).x)
      (({ c1ballB with gapOutsideTicks := c1ballB.gapOutsideTicks + 1 } : Minimal.Ball).y
      - ({ c1ballA with gapOutsideTicks := c1ballA.gapOutsideTicks + 1 } : Minimal.Ball).y) = 200 := by
    show hypot ((1400 : ℝ) - 1200) ((0 : ℝ) - 0) = 200
    rw [show (1400 : ℝ) - 1200 = 200 by norm_num, show (0 : ℝ) - 0 = 0 by norm_num]
    exact hypot_x_axis 200 (by norm_num)
  have hpair : Minimal.resolvePair
      { c1ballA with gapOutsideTicks := c1ballA.gapOutsideTicks + 1 }
      { c1ballB with gapOutsideTicks := c1ballB.gapOutsideTicks + 1 } =
      ({ c1ballA with gapOutsideTicks := c1ballA.gapOutsideTicks + 1 },
       { c1ballB with gapOutsideTicks := c1ballB.gapOutsideTicks + 1 }) := by
    simp only [Minimal.resolvePair]
    rw [hd]
    rw [if_neg (by
      rw [show c1ballA.r = 3 from rfl, show c1ballB.r = 3 from rfl]
      norm_num)]
  rw [hpair]
  rw [show insertionSortDesc [0, 1] = [1, 0] from rfl, List.foldl_cons, List.foldl_cons,
    List.foldl_nil]
  simp [Minimal.handleEscape]

lemma finishStep_pos (rngf : ℕ → ℝ) (cx cy : ℝ) (spawnEnabled : Bool)
    (gapStart glow2 : ℝ) (k nid : ℕ) (balls4 : List Gate.Ball) :
    1 ≤ (Gate.finishStep rngf cx cy spawnEnabled gapStart glow2 k nid balls4).balls.length := by
  simp only [Gate.finishStep]
  split_ifs with h
  · simp
  · exact Nat.one_le_iff_ne_zero.mpr h

/-- C1 amended: the `RotatingGateBalls` variant (part_002) force-creates a
seed ball at the boundary center whenever the set is empty after removals,
so its population is at least 1 after every completed tick; the
`PhysicsVisualMinimal` variant has no such floor. -/
theorem spec_c1_population_floor (rngf : ℕ → ℝ) (isMobile : Bool)
    (cx cy R cssW cssH now dt : ℝ) (st : Gate.SimState) :
    1 ≤ (Gate.stepSimulation rngf isMobile cx cy R cssW cssH now dt st).balls.length := by
  simp only [Gate.stepSimulation]
  apply finishStep_pos

/-! ### C2: children count and population cap -/

lemma resolveBBC_length (l : List Minimal.Ball) :
    (Minimal.resolveBallBallCollisions l).length = l.length := by
  simp only [Minimal.resolveBallBallCollisions]
  have inner : ∀ (i : ℕ) (js : List ℕ) (acc : List Minimal.Ball),
      (js.foldl (fun acc2 j =>
        if i < j then
          ((acc2.set i (Minimal.resolvePair (acc2.getD i default) (acc2.getD j default)).1).set j
            (Minimal.resolvePair (acc2.getD i default) (acc2.getD j default)).2)
        else acc2) acc).length = acc.length := by
    intro i js
    induction js with
    | nil => intro acc; rfl
    | cons j js ih =>
      intro acc
      rw [List.foldl_cons, ih]
      split_ifs <;> simp
  have outer : ∀ (is : List ℕ) (acc : List Minimal.Ball),
      (is.foldl (fun acc i =>
        (List.range l.length).foldl (fun acc2 j =>
          if i < j then
            ((acc2.set i (Minimal.resolvePair (acc2.getD i default) (acc2.getD j default)).1).set j
              (Minimal.resolvePair (acc2.getD i default) (acc2.getD j default)).2)
          else acc2) acc) acc).length = acc.length := by
    intro is
    induction is with
    | nil => intro acc; rfl
    | cons i is ih =>
      intro acc
      rw [List.foldl_cons, ih, inner]
  exact outer _ l

lemma insertDesc_length (x : ℕ) (l : List ℕ) : (insertDesc x l).length = l.length + 1 := by
  induction l with
  | nil => rfl
  | cons y ys ih =>
    simp only [insertDesc]
    split_ifs <;> simp [ih]

lemma insertionSortDesc_length (l : List ℕ) : (insertionSortDesc l).length = l.length := by
  unfold insertionSortDesc
  induction l with
  | nil => rfl
  | cons x xs ih => simp [List.foldr_cons, insertDesc_length, ih]

lemma eraseIdx_length_le (l : List Minimal.Ball) (i : ℕ) :
    (l.eraseIdx i).length ≤ l.length := by
  rw [List.length_eraseIdx]
  split_ifs <;> omega

lemma handleEscape_len_le (flag : Bool) (cx2 cy2 : ℝ) (rngf : ℕ → ℝ)
    (acc : List Minimal.Ball × ℕ × ℕ) (idx : ℕ) :
    (Minimal.handleEscape flag cx2 cy2 rngf acc idx).1.length ≤ acc.1.length + 2 := by
  have he := eraseIdx_length_le acc.1 idx
  simp only [Minimal.handleEscape]
  split_ifs <;> simp <;> omega

lemma handleEscape_len_false (cx2 cy2 : ℝ) (rngf : ℕ → ℝ)
    (acc : List Minimal.Ball × ℕ × ℕ) (idx : ℕ) :
    (Minimal.handleEscape false cx2 cy2 rngf acc idx).1.length ≤ acc.1.length := by
  have he := eraseIdx_length_le acc.1 idx
  simp only [Minimal.handleEscape]
  rw [if_neg (by simp)]
  exact he

lemma foldl_handleEscape_le (flag : Bool) (cx2 cy2 : ℝ) (rngf : ℕ → ℝ) :
    ∀ (idxs : List ℕ) (acc : List Minimal.Ball × ℕ × ℕ),
      (idxs.foldl (Minimal.handleEscape flag cx2 cy2 rngf) acc).1.length
        ≤ acc.1.length + 2 * idxs.length := by
  intro idxs
  induction idxs with
  | nil => intro acc; simp
  | cons i is ih =>
    intro acc
    rw [List.foldl_cons]
    calc (is.foldl (Minimal.handleEscape flag cx2 cy2 rngf)
            (Minimal.handleEscape flag cx2 cy2 rngf acc i)).1.length
        ≤ (Minimal.handleEscape flag cx2 cy2 rngf acc i).1.length + 2 * is.length := ih _
      _ ≤ acc.1.length + 2 + 2 * is.length := by
          have := handleEscape_len_le flag cx2 cy2 rngf acc i
          omega
      _ = acc.1.length + 2 * (i :: is).length := by simp [List.length_cons]; ring

lemma foldl_handleEscape_false (cx2 cy2 : ℝ) (rngf : ℕ → ℝ) :
    ∀ (idxs : List ℕ) (acc : List Minimal.Ball × ℕ × ℕ),
      (idxs.foldl (Minimal.handleEscape false cx2 cy2 rngf) acc).1.length ≤ acc.1.length := by
  intro idxs
  induction idxs with
  | nil => intro acc; simp
  | cons i is ih =>
    intro acc
    rw [List.foldl_cons]
    exact le_trans (ih _) (handleEscape_len_false cx2 cy2 rngf acc i)

/-- C2: every handled escape creates exactly 0 or exactly 2 children (the
post-removal list grows by 0 or by 2, never by 1), and a tick never pushes
the population above the cap of 300. -/
theorem spec_c2_children_and_cap :
    (∀ (flag : Bool) (cx2 cy2 : ℝ) (rngf : ℕ → ℝ)
        (acc : List Minimal.Ball × ℕ × ℕ) (idx : ℕ),
      (Minimal.handleEscape flag cx2 cy2 rngf acc idx).1.length
          = (acc.1.eraseIdx idx).length ∨
      (Minimal.handleEscape flag cx2 cy2 rngf acc idx).1.length
          = (acc.1.eraseIdx idx).length + 2) ∧
    (∀ (rngf : ℕ → ℝ) (cx cy R now dt : ℝ) (s : Minimal.SimState),
      s.balls.length ≤ Minimal.maxBalls →
      (Minimal.stepSimulation rngf cx cy R now dt s).balls.length ≤ Minimal.maxBalls) := by
  constructor
  · intro flag cx2 cy2 rngf acc idx
    simp only [Minimal.handleEscape]
    split_ifs with h1 h2
    · right; simp
    · left; rfl
    · left; rfl
  · intro rngf cx cy R now dt s hcap
    simp only [Minimal.stepSimulation]
    by_cases h20 : s.balls.length ≥ 20
    · rw [if_pos h20]
      refine le_trans (foldl_handleEscape_false cx cy rngf _ _) ?_
      show (Minimal.resolveBallBallCollisions _).length ≤ Minimal.maxBalls
      rw [resolveBBC_length, List.length_map, List.length_map]
      exact hcap
    · rw [if_neg h20]
      refine le_trans (foldl_handleEscape_le _ cx cy rngf _ _) ?_
      have h1 : (Minimal.resolveBallBallCollisions
          (List.map Prod.fst (List.map
            (Minimal.processBall cx cy R
              (wrapAngle (s.gapStart + Minimal.rotationSpeed * dt))
              (π * 2 * Minimal.gapPercent) now dt) s.balls))).length
          = s.balls.length := by
        rw [resolveBBC_length, List.length_map, List.length_map]
      have h2 : ∀ ps : List (ℕ × (Minimal.Ball × Bool)),
          (insertionSortDesc ((ps.filter (fun p => p.2.2)).map Prod.fst)).length ≤ ps.length := by
        intro ps
        rw [insertionSortDesc_length, List.length_map]
        exact List.length_filter_le _ _
      have h3 := h2 ((List.map
        (Minimal.processBall cx cy R
          (wrapAngle (s.gapStart + Minimal.rotationSpeed * dt))
          (π * 2 * Minimal.gapPercent) now dt) s.balls).enum)
      simp only [List.enum_length, List.length_map] at h3
      simp only [Minimal.maxBalls] at hcap ⊢
      omega

/-- Witness for C2 at a concrete escape-handler call and a concrete state. -/
theorem spec_c2_children_and_cap_witness :
    ((Minimal.handleEscape true 0 0 rng0 ([], 0, 0) 0).1.length
        = (([] : List Minimal.Ball).eraseIdx 0).length ∨
      (Minimal.handleEscape true 0 0 rng0 ([], 0, 0) 0).1.length
        = (([] : List Minimal.Ball).eraseIdx 0).length + 2) ∧
    ((⟨[], true, 0, 7, 0⟩ : Minimal.SimState).balls.length ≤ Minimal.maxBalls) ∧
    (Minimal.stepSimulation rng0 0 0 1000 0 0 ⟨[], true, 0, 7, 0⟩).balls.length
        ≤ Minimal.maxBalls :=
  ⟨spec_c2_children_and_cap.1 true 0 0 rng0 ([], 0, 0) 0,
   by simp [Minimal.maxBalls],
   spec_c2_children_and_cap.2 rng0 0 0 1000 0 0 ⟨[], true, 0, 7, 0⟩
     (by simp [Minimal.maxBalls])⟩
